import Mathlib

/-
Verification model of the dqcsim handle-based C API surface exercised by
`dqcsim-api/cpp/test_raw/cmd.cpp`: the handle registry, the ArbData /
ArbCmd data model, identifier validation, the per-thread error channel,
and the debug dump serializer.  The Rust implementation is not part of
this source tree, so the operations are modelled from the specification
and from the observable contract pinned by the C++ test file; each such
definition says so in its doc comment.
-/

/-- Modelled from the spec: JSON values as stored in an ArbData's json
field (the Rust side uses serde_json, which is not in this tree).
Objects keep field insertion order. -/
inductive JsonValue where
  | jnull : JsonValue
  | jbool (b : Bool) : JsonValue
  | jnum (n : Int) : JsonValue
  | jstr (s : String) : JsonValue
  | jarr (elems : List JsonValue) : JsonValue
  | jobj (fields : List (String × JsonValue)) : JsonValue

/-- True exactly when the JSON value is an object (spec 3: the json field
of an ArbData is always a JSON object). -/
def JsonValue.isObj : JsonValue → Bool
  | .jobj _ => true
  | _ => false

/-- Modelled from the spec: ArbData is a JSON object plus an ordered list
of (binary) string arguments (spec 3). -/
structure ArbData where
  json : JsonValue
  args : List String

/-- Modelled from the spec: a registry resource is a tagged variant, here
the two kinds in scope: ArbData and ArbCmd (spec 3). -/
inductive Resource where
  | arbData (d : ArbData) : Resource
  | arbCmd (iface oper : String) (d : ArbData) : Resource

/-- The ArbData embedded in a resource (an ArbCmd's `data` field, or the
ArbData itself); spec 4.4: ArbData operations apply transparently. -/
def Resource.getData : Resource → ArbData
  | .arbData d => d
  | .arbCmd _ _ d => d

/-- Replace the embedded ArbData, leaving type-specific fields (an
ArbCmd's identifiers) untouched (spec 4.3, assign). -/
def Resource.setData : Resource → ArbData → Resource
  | .arbData _, d => .arbData d
  | .arbCmd i o _, d => .arbCmd i o d

/-- Return type of status-producing API calls (dqcs_return_t). -/
inductive dqcs_return_t where
  | DQCS_SUCCESS : dqcs_return_t
  | DQCS_FAILURE : dqcs_return_t
deriving DecidableEq, Repr

/-- Return type of boolean-query API calls (dqcs_bool_return_t): a
tri-state with a failure value distinct from true and false. -/
inductive dqcs_bool_return_t where
  | DQCS_FALSE : dqcs_bool_return_t
  | DQCS_TRUE : dqcs_bool_return_t
  | DQCS_BOOL_FAILURE : dqcs_bool_return_t
deriving DecidableEq, Repr

/-- Handle type tags (dqcs_handle_type_t), restricted to the kinds in
scope plus the distinguished invalid tag. -/
inductive dqcs_handle_type_t where
  | DQCS_HTYPE_INVALID : dqcs_handle_type_t
  | DQCS_HTYPE_ARB_DATA : dqcs_handle_type_t
  | DQCS_HTYPE_ARB_CMD : dqcs_handle_type_t
deriving DecidableEq, Repr

/-- Modelled from the spec: process state of the API layer: the handle
registry (association list from live handle to resource), the monotonic
next-handle counter, and the thread-local last-error slot (the model
follows a single thread, which is all the tests exercise). -/
structure APIState where
  handles : List (Nat × Resource)
  nextHandle : Nat
  lastError : Option String

/-- Initial state: no live handles, counter at 1 (0 is the failure
sentinel and is never issued), no error recorded yet. -/
def initialState : APIState :=
  { handles := [], nextHandle := 1, lastError := none }

/-- Record a failure message in the thread-local last-error slot,
overwriting any previous message (spec 4.5). -/
def APIState.fail (s : APIState) (msg : String) : APIState :=
  { s with lastError := some msg }

/-- Look up the resource bound to a handle, if the handle is live. -/
def APIState.find (s : APIState) (h : Nat) : Option Resource :=
  (s.handles.find? (fun p => p.1 == h)).map (fun p => p.2)

/-- A handle is live when the registry maps it to a resource. -/
def APIState.isLive (s : APIState) (h : Nat) : Bool :=
  (s.find h).isSome

/-- Replace the resource bound to a live handle in place. -/
def updateRes (s : APIState) (h : Nat) (r : Resource) : APIState :=
  { s with handles := s.handles.map (fun p => if p.1 == h then (p.1, r) else p) }

/-- Remove a handle's binding from the registry (delete). -/
def removeRes (s : APIState) (h : Nat) : APIState :=
  { s with handles := s.handles.filter (fun p => p.1 != h) }

/-- Insert a fresh resource under the next handle value and bump the
monotonic counter; returns the issued handle (spec 4.1, new). -/
def insertRes (s : APIState) (r : Resource) : APIState × Nat :=
  ({ s with handles := (s.nextHandle, r) :: s.handles,
            nextHandle := s.nextHandle + 1 }, s.nextHandle)

/-- Error message for a dead, forged or zero handle, as pinned by the
test: "Invalid argument: handle <h> is invalid". -/
def invalidHandleMsg (h : Nat) : String :=
  "Invalid argument: handle " ++ toString h ++ " is invalid"

/-- Error message for a required string argument that is NULL, as pinned
by the test. -/
def nullStringMsg : String :=
  "Invalid argument: unexpected NULL string"

/-- Error message for an empty identifier, as pinned by the test. -/
def emptyIdentMsg : String :=
  "Invalid argument: identifiers must not be empty"

/-- Error message for an identifier with characters outside the allowed
set, citing the offending identifier, as pinned by the test. -/
def invalidIdentMsg (s : String) : String :=
  "Invalid argument: \"" ++ s ++ "\" is not a valid identifier; it contains characters outside [a-zA-Z0-9_]"

/-- Modelled from the spec: error message for popping from an empty args
list (*out of range*, spec 4.3); the exact wording is not pinned by the
test. -/
def outOfRangeMsg : String :=
  "Invalid argument: index out of range"

/-- Modelled from the spec: error message for text that fails to parse
as JSON (*parse error*, spec 4.3); the serde parser and its message are
not in this tree. -/
def parseErrorMsg : String :=
  "Invalid argument: invalid JSON"

/-- Modelled from the spec: error message for JSON whose root is not an
object (*invalid argument*, spec 4.3); exact wording not pinned. -/
def rootNotObjectMsg : String :=
  "Invalid argument: JSON root must be an object"

/-- Modelled from the spec: error message for a cmd operation applied to
a resource that is not an ArbCmd (*type mismatch*, spec 7); exact
wording not pinned by the test. -/
def cmdMismatchMsg (h : Nat) : String :=
  "Invalid argument: handle " ++ toString h ++ " does not implement the cmd interface"

/-- A character allowed in an identifier: [a-zA-Z0-9_] (spec 3). -/
def isIdentChar (c : Char) : Bool :=
  ('a' ≤ c && c ≤ 'z') || ('A' ≤ c && c ≤ 'Z') || ('0' ≤ c && c ≤ '9') || c == '_'

/-- Modelled from the spec: identifier validation (spec 4.2): empty
identifiers and identifiers with characters outside [a-zA-Z0-9_] are
rejected; returns the error message on failure, none on success. -/
def validateIdent (s : String) : Option String :=
  if s.isEmpty then some emptyIdentMsg
  else if s.data.all isIdentChar then none
  else some (invalidIdentMsg s)

/-- Modelled from the spec: dqcs_arb_new creates a fresh ArbData with
json = \x7b\x7d and no args; always succeeds, returns the new handle
(spec 4.3). -/
def dqcs_arb_new (s : APIState) : APIState × Nat :=
  insertRes s (Resource.arbData { json := .jobj [], args := [] })

/-- Modelled from the spec: dqcs_cmd_new checks both strings for NULL
before validation, then validates the interface and the operation
identifier; on success creates an ArbCmd with an empty embedded ArbData;
returns 0 on failure (spec 4.4). -/
def dqcs_cmd_new (s : APIState) (iface oper : Option String) : APIState × Nat :=
  match iface, oper with
  | none, _ => (s.fail nullStringMsg, 0)
  | some _, none => (s.fail nullStringMsg, 0)
  | some i, some o =>
    match validateIdent i with
    | some m => (s.fail m, 0)
    | none =>
      match validateIdent o with
      | some m => (s.fail m, 0)
      | none => insertRes s (Resource.arbCmd i o { json := .jobj [], args := [] })

/-- Modelled from the spec: dqcs_handle_delete frees the resource; fails
with *invalid handle* if the handle is not live (spec 4.1). -/
def dqcs_handle_delete (s : APIState) (h : Nat) : APIState × dqcs_return_t :=
  match s.find h with
  | none => (s.fail (invalidHandleMsg h), .DQCS_FAILURE)
  | some _ => (removeRes s h, .DQCS_SUCCESS)

/-- Modelled from the spec: dqcs_handle_type returns the resource's type
tag, or the distinguished invalid tag for a dead handle, without
touching the error channel (spec 4.1). -/
def dqcs_handle_type (s : APIState) (h : Nat) : dqcs_handle_type_t :=
  match s.find h with
  | none => .DQCS_HTYPE_INVALID
  | some (.arbData _) => .DQCS_HTYPE_ARB_DATA
  | some (.arbCmd _ _ _) => .DQCS_HTYPE_ARB_CMD

/-- Modelled from the spec: dqcs_cmd_iface_get returns a copy of the
interface identifier; fails with *invalid handle* on a dead handle and
with *type mismatch* on a non-ArbCmd resource (spec 4.4). -/
def dqcs_cmd_iface_get (s : APIState) (h : Nat) : APIState × Option String :=
  match s.find h with
  | none => (s.fail (invalidHandleMsg h), none)
  | some (.arbCmd i _ _) => (s, some i)
  | some (.arbData _) => (s.fail (cmdMismatchMsg h), none)

/-- Modelled from the spec: dqcs_cmd_oper_get returns a copy of the
operation identifier; failure cases as for the interface getter
(spec 4.4). -/
def dqcs_cmd_oper_get (s : APIState) (h : Nat) : APIState × Option String :=
  match s.find h with
  | none => (s.fail (invalidHandleMsg h), none)
  | some (.arbCmd _ o _) => (s, some o)
  | some (.arbData _) => (s.fail (cmdMismatchMsg h), none)

/-- Modelled from the spec: dqcs_cmd_iface_cmp compares the stored
interface identifier with the given text, case-sensitively; a NULL text
is a failure (tri-state) with *unexpected NULL string* (spec 4.4). -/
def dqcs_cmd_iface_cmp (s : APIState) (h : Nat) (t : Option String) :
    APIState × dqcs_bool_return_t :=
  match s.find h with
  | none => (s.fail (invalidHandleMsg h), .DQCS_BOOL_FAILURE)
  | some (.arbData _) => (s.fail (cmdMismatchMsg h), .DQCS_BOOL_FAILURE)
  | some (.arbCmd i _ _) =>
    match t with
    | none => (s.fail nullStringMsg, .DQCS_BOOL_FAILURE)
    | some t' => (s, if i = t' then .DQCS_TRUE else .DQCS_FALSE)

/-- Modelled from the spec: dqcs_cmd_oper_cmp compares the stored
operation identifier with the given text; behaviour as for the
interface comparison (spec 4.4). -/
def dqcs_cmd_oper_cmp (s : APIState) (h : Nat) (t : Option String) :
    APIState × dqcs_bool_return_t :=
  match s.find h with
  | none => (s.fail (invalidHandleMsg h), .DQCS_BOOL_FAILURE)
  | some (.arbData _) => (s.fail (cmdMismatchMsg h), .DQCS_BOOL_FAILURE)
  | some (.arbCmd _ o _) =>
    match t with
    | none => (s.fail nullStringMsg, .DQCS_BOOL_FAILURE)
    | some t' => (s, if o = t' then .DQCS_TRUE else .DQCS_FALSE)

/-- Modelled from the spec: dqcs_arb_json_set_str parses the given text
with serde (the parser is not in this tree, so the operation takes the
parse result: none for malformed text); the handle check runs first, a
parse failure is *parse error*, a non-object root is *invalid argument*,
and on success the json field is replaced wholesale, args untouched
(spec 4.3). -/
def dqcs_arb_json_set (s : APIState) (h : Nat) (parsed : Option JsonValue) :
    APIState × dqcs_return_t :=
  match s.find h with
  | none => (s.fail (invalidHandleMsg h), .DQCS_FAILURE)
  | some r =>
    match parsed with
    | none => (s.fail parseErrorMsg, .DQCS_FAILURE)
    | some v =>
      match v with
      | .jobj fs =>
        (updateRes s h (r.setData { r.getData with json := .jobj fs }), .DQCS_SUCCESS)
      | _ => (s.fail rootNotObjectMsg, .DQCS_FAILURE)

/-- Modelled from the spec: dqcs_arb_push_str appends an argument to the
embedded ArbData's args; the handle check runs first; a NULL string is
*unexpected NULL string* (spec 4.3). -/
def dqcs_arb_push (s : APIState) (h : Nat) (x : Option String) :
    APIState × dqcs_return_t :=
  match s.find h with
  | none => (s.fail (invalidHandleMsg h), .DQCS_FAILURE)
  | some r =>
    match x with
    | none => (s.fail nullStringMsg, .DQCS_FAILURE)
    | some x' =>
      (updateRes s h (r.setData { r.getData with args := r.getData.args ++ [x'] }),
       .DQCS_SUCCESS)

/-- Modelled from the spec: dqcs_arb_pop_str removes and returns the
last argument; fails with *out of range* when args is empty (spec 4.3). -/
def dqcs_arb_pop (s : APIState) (h : Nat) : APIState × Option String :=
  match s.find h with
  | none => (s.fail (invalidHandleMsg h), none)
  | some r =>
    match r.getData.args.getLast? with
    | none => (s.fail outOfRangeMsg, none)
    | some x =>
      (updateRes s h (r.setData { r.getData with args := r.getData.args.dropLast }),
       some x)

/-- Modelled from the spec: dqcs_arb_len returns the number of args;
-1 on an invalid handle (spec 4.3). -/
def dqcs_arb_len (s : APIState) (h : Nat) : APIState × Int :=
  match s.find h with
  | none => (s.fail (invalidHandleMsg h), -1)
  | some r => (s, Int.ofNat r.getData.args.length)

/-- Modelled from the spec: dqcs_arb_assign copies json and args from
src into dst's embedded ArbData, leaving dst's type-specific fields
untouched; fails with *invalid handle* if either handle is dead
(spec 4.3). -/
def dqcs_arb_assign (s : APIState) (dst src : Nat) : APIState × dqcs_return_t :=
  match s.find dst with
  | none => (s.fail (invalidHandleMsg dst), .DQCS_FAILURE)
  | some rd =>
    match s.find src with
    | none => (s.fail (invalidHandleMsg src), .DQCS_FAILURE)
    | some rs => (updateRes s dst (rd.setData rs.getData), .DQCS_SUCCESS)

/-- Modelled from the spec: dqcs_explain returns the current thread's
last error message, or none when no failure has occurred yet, without
clearing it (spec 4.5). -/
def dqcs_explain (s : APIState) : APIState × Option String :=
  (s, s.lastError)

/-- A run of n spaces, for the dump serializer's indentation. -/
def spaces (n : Nat) : String :=
  String.mk (List.replicate n ' ')

mutual

/-- Modelled from the spec: Rust debug rendering of a serde_json value
at the given indentation, as it appears inside a handle dump; the empty
object case is pinned byte-exact by the test. -/
def dumpJson (ind : Nat) : JsonValue → String
  | JsonValue.jnull => "Null"
  | JsonValue.jbool b => "Bool(" ++ (if b then "true" else "false") ++ ")"
  | JsonValue.jnum n => "Number(" ++ toString n ++ ")"
  | JsonValue.jstr t => "String(\"" ++ t ++ "\")"
  | JsonValue.jarr [] =>
    "Array(\n" ++ spaces (ind + 4) ++ "[]\n" ++ spaces ind ++ ")"
  | JsonValue.jarr (v :: vs) =>
    "Array(\n" ++ spaces (ind + 4) ++ "[\n" ++ dumpElems (ind + 8) (v :: vs) ++
      spaces (ind + 4) ++ "]\n" ++ spaces ind ++ ")"
  | JsonValue.jobj [] =>
    "Object(\n" ++ spaces (ind + 4) ++ "\x7b\x7d\n" ++ spaces ind ++ ")"
  | JsonValue.jobj (f :: fs) =>
    "Object(\n" ++ spaces (ind + 4) ++ "\x7b\n" ++ dumpFields (ind + 8) (f :: fs) ++
      spaces (ind + 4) ++ "\x7d\n" ++ spaces ind ++ ")"

/-- Render the elements of a JSON array, one per line. -/
def dumpElems (ind : Nat) : List JsonValue → String
  | [] => ""
  | v :: vs => spaces ind ++ dumpJson ind v ++ ",\n" ++ dumpElems ind vs

/-- Render the fields of a JSON object, one per line. -/
def dumpFields (ind : Nat) : List (String × JsonValue) → String
  | [] => ""
  | f :: fs => spaces ind ++ "\"" ++ f.1 ++ "\": " ++ dumpJson ind f.2 ++ ",\n" ++
      dumpFields ind fs

end

/-- Render an args list in the dump; the empty case is pinned as "[]"
by the test. -/
def dumpArgs (ind : Nat) : List String → String
  | [] => "[]"
  | x :: xs =>
    "[\n" ++ String.join ((x :: xs).map (fun a => spaces (ind + 4) ++ "\"" ++ a ++ "\",\n")) ++
      spaces ind ++ "]"

/-- Render the struct body of an ArbData at the given indentation, as it
appears in a handle dump. -/
def dumpArbDataInner (ind : Nat) (d : ArbData) : String :=
  "ArbData \x7b\n" ++
    spaces (ind + 4) ++ "json: " ++ dumpJson (ind + 4) d.json ++ ",\n" ++
    spaces (ind + 4) ++ "args: " ++ dumpArgs (ind + 4) d.args ++ "\n" ++
    spaces ind ++ "\x7d"

/-- Modelled from the spec: the debug serializer's rendering of a whole
resource (spec 4.6); the fresh-ArbCmd case is pinned byte-exact by the
test. -/
def dumpResource : Resource → String
  | .arbData d =>
    "ArbData(\n    " ++ dumpArbDataInner 4 d ++ "\n)"
  | .arbCmd i o d =>
    "ArbCmd(\n    ArbCmd \x7b\n" ++
      spaces 8 ++ "interface_identifier: \"" ++ i ++ "\",\n" ++
      spaces 8 ++ "operation_identifier: \"" ++ o ++ "\",\n" ++
      spaces 8 ++ "data: " ++ dumpArbDataInner 8 d ++ "\n" ++
      spaces 4 ++ "\x7d\n)"

/-- Modelled from the spec: dqcs_handle_dump renders the resource bound
to a handle; returns none and sets the error channel for an invalid
handle (spec 4.6). -/
def dqcs_handle_dump (s : APIState) (h : Nat) : APIState × Option String :=
  match s.find h with
  | none => (s.fail (invalidHandleMsg h), none)
  | some r => (s, some (dumpResource r))

mutual

/-- Modelled from the spec: compact serde-style serialization of a JSON
value (spec 4.3, get_json): no padding spaces, fields in stored order;
the single-key object case is pinned by the test as
"\x7b\"answer\":42\x7d". -/
def jsonToText : JsonValue → String
  | JsonValue.jnull => "null"
  | JsonValue.jbool b => if b then "true" else "false"
  | JsonValue.jnum n => toString n
  | JsonValue.jstr t => "\"" ++ t ++ "\""
  | JsonValue.jarr es => "[" ++ jsonArrText es ++ "]"
  | JsonValue.jobj fs => "\x7b" ++ jsonObjText fs ++ "\x7d"

/-- Comma-separated serialization of a JSON array's elements. -/
def jsonArrText : List JsonValue → String
  | [] => ""
  | [v] => jsonToText v
  | v :: vs => jsonToText v ++ "," ++ jsonArrText vs

/-- Comma-separated serialization of a JSON object's fields. -/
def jsonObjText : List (String × JsonValue) → String
  | [] => ""
  | [f] => "\"" ++ f.1 ++ "\":" ++ jsonToText f.2
  | f :: fs => "\"" ++ f.1 ++ "\":" ++ jsonToText f.2 ++ "," ++ jsonObjText fs

end

/-- Modelled from the spec: dqcs_arb_json_get_str serializes the json
field of the embedded ArbData and hands back a fresh copy; fails with
*invalid handle* on a dead handle (spec 4.3). -/
def dqcs_arb_json_get (s : APIState) (h : Nat) : APIState × Option String :=
  match s.find h with
  | none => (s.fail (invalidHandleMsg h), none)
  | some r => (s, some (jsonToText r.getData.json))

/-- One foreign call at the API boundary, with its arguments; used to
reason about arbitrary operation sequences. -/
inductive Op where
  | arbNew : Op
  | cmdNew (iface oper : Option String) : Op
  | hdelete (h : Nat) : Op
  | hdump (h : Nat) : Op
  | ifaceGet (h : Nat) : Op
  | operGet (h : Nat) : Op
  | ifaceCmp (h : Nat) (t : Option String) : Op
  | operCmp (h : Nat) (t : Option String) : Op
  | jsonSet (h : Nat) (parsed : Option JsonValue) : Op
  | pushArg (h : Nat) (x : Option String) : Op
  | popArg (h : Nat) : Op
  | lenOf (h : Nat) : Op
  | assign (dst src : Nat) : Op

/-- State transition of one foreign call (the state component of the
corresponding dqcs operation). -/
def applyOp (s : APIState) : Op → APIState
  | .arbNew => (dqcs_arb_new s).1
  | .cmdNew i o => (dqcs_cmd_new s i o).1
  | .hdelete h => (dqcs_handle_delete s h).1
  | .hdump h => (dqcs_handle_dump s h).1
  | .ifaceGet h => (dqcs_cmd_iface_get s h).1
  | .operGet h => (dqcs_cmd_oper_get s h).1
  | .ifaceCmp h t => (dqcs_cmd_iface_cmp s h t).1
  | .operCmp h t => (dqcs_cmd_oper_cmp s h t).1
  | .jsonSet h p => (dqcs_arb_json_set s h p).1
  | .pushArg h x => (dqcs_arb_push s h x).1
  | .popArg h => (dqcs_arb_pop s h).1
  | .lenOf h => (dqcs_arb_len s h).1
  | .assign d r => (dqcs_arb_assign s d r).1

/-- Whether one foreign call reports failure through its return channel
(0 handle, DQCS_FAILURE, null string, BOOL_FAILURE, or -1). -/
def opFailed (s : APIState) : Op → Bool
  | .arbNew => (dqcs_arb_new s).2 == 0
  | .cmdNew i o => (dqcs_cmd_new s i o).2 == 0
  | .hdelete h => (dqcs_handle_delete s h).2 == .DQCS_FAILURE
  | .hdump h => ((dqcs_handle_dump s h).2).isNone
  | .ifaceGet h => ((dqcs_cmd_iface_get s h).2).isNone
  | .operGet h => ((dqcs_cmd_oper_get s h).2).isNone
  | .ifaceCmp h t => (dqcs_cmd_iface_cmp s h t).2 == .DQCS_BOOL_FAILURE
  | .operCmp h t => (dqcs_cmd_oper_cmp s h t).2 == .DQCS_BOOL_FAILURE
  | .jsonSet h p => (dqcs_arb_json_set s h p).2 == .DQCS_FAILURE
  | .pushArg h x => (dqcs_arb_push s h x).2 == .DQCS_FAILURE
  | .popArg h => ((dqcs_arb_pop s h).2).isNone
  | .lenOf h => (dqcs_arb_len s h).2 == -1
  | .assign d r => (dqcs_arb_assign s d r).2 == .DQCS_FAILURE

/-- Run a sequence of foreign calls from a state. -/
def run (s : APIState) (ops : List Op) : APIState :=
  ops.foldl applyOp s

/-- Push a list of argument strings one by one; the flag records whether
every push reported success. -/
def pushAll (s : APIState) (h : Nat) : List String → APIState × Bool
  | [] => (s, true)
  | x :: xs =>
    let p := dqcs_arb_push s h (some x)
    let q := pushAll p.1 h xs
    (q.1, (p.2 == dqcs_return_t.DQCS_SUCCESS) && q.2)

/-- Pop n argument strings one by one, collecting the results in call
order. -/
def popN (s : APIState) (h : Nat) : Nat → APIState × List (Option String)
  | 0 => (s, [])
  | n + 1 =>
    let p := dqcs_arb_pop s h
    let q := popN p.1 h n
    (q.1, p.2 :: q.2)

/-- Registry well-formedness: the counter was issued at least once past
zero, every live handle is nonzero and below the counter, and no handle
is bound twice (spec 3: handle uniqueness and monotonic issuing). -/
def stateWF (s : APIState) : Prop :=
  1 ≤ s.nextHandle ∧
  (∀ p ∈ s.handles, p.1 ≠ 0 ∧ p.1 < s.nextHandle) ∧
  (s.handles.map Prod.fst).Nodup

/-- The json-object invariant: every live resource's embedded ArbData
has an object at its json root (spec 3). -/
def jsonWF (s : APIState) : Prop :=
  ∀ p ∈ s.handles, (Resource.getData p.2).json.isObj = true

instance (s : APIState) : Decidable (stateWF s) := by
  unfold stateWF
  infer_instance

instance (s : APIState) : Decidable (jsonWF s) := by
  unfold jsonWF
  infer_instance

/-- Replace the last-error slot of a state (used to express that failure
messages overwrite rather than extend the previous message). -/
def setErr (s : APIState) (e : Option String) : APIState :=
  { s with lastError := e }

theorem find_setErr (s : APIState) (e : Option String) (h : Nat) :
    (setErr s e).find h = s.find h := rfl

theorem getData_setData (r : Resource) (d : ArbData) :
    (r.setData d).getData = d := by
  cases r <;> rfl

theorem setData_setData (r : Resource) (d d' : ArbData) :
    (r.setData d).setData d' = r.setData d' := by
  cases r <;> rfl

theorem find?_map_update (l : List (Nat × Resource)) (h : Nat) (r : Resource) :
    (l.map (fun p => if p.1 == h then (p.1, r) else p)).find? (fun p => p.1 == h) =
      (l.find? (fun p => p.1 == h)).map (fun p => (p.1, r)) := by
  induction l with
  | nil => rfl
  | cons p ps ih =>
    by_cases hp : p.1 = h
    · rw [List.map_cons, if_pos (by simpa using hp),
        List.find?_cons_of_pos _ (by simpa using hp),
        List.find?_cons_of_pos _ (by simpa using hp)]
      rfl
    · rw [List.map_cons, if_neg (by simpa using hp),
        List.find?_cons_of_neg _ (by simpa using hp),
        List.find?_cons_of_neg _ (by simpa using hp)]
      exact ih

theorem find_updateRes (s : APIState) (h : Nat) (r : Resource) :
    (updateRes s h r).find h = (s.find h).map (fun _ => r) := by
  unfold updateRes APIState.find
  simp only [find?_map_update]
  cases s.handles.find? (fun p => p.1 == h) <;> rfl

theorem find?_filter_ne (l : List (Nat × Resource)) (h : Nat) :
    (l.filter (fun p => p.1 != h)).find? (fun p => p.1 == h) = none := by
  induction l with
  | nil => rfl
  | cons p ps ih =>
    by_cases hp : p.1 = h
    · rw [List.filter_cons, if_neg (by simp [hp])]
      exact ih
    · rw [List.filter_cons, if_pos (by simp [hp]),
        List.find?_cons_of_neg _ (by simp [hp])]
      exact ih

theorem find_removeRes (s : APIState) (h : Nat) :
    (removeRes s h).find h = none := by
  unfold removeRes APIState.find
  simp [find?_filter_ne]

theorem updateRes_updateRes (s : APIState) (h : Nat) (r r' : Resource) :
    updateRes (updateRes s h r) h r' = updateRes s h r' := by
  unfold updateRes
  simp only [List.map_map]
  congr 1
  apply List.map_congr_left
  intro p _
  by_cases hp : p.1 = h <;> simp [hp]

theorem stateWF_fail (s : APIState) (m : String) :
    stateWF (s.fail m) ↔ stateWF s := Iff.rfl

theorem keys_updateRes (s : APIState) (h : Nat) (r : Resource) :
    (updateRes s h r).handles.map Prod.fst = s.handles.map Prod.fst := by
  simp only [updateRes, List.map_map]
  apply List.map_congr_left
  intro p _
  by_cases hp : p.1 = h <;> simp [hp]

theorem stateWF_updateRes (s : APIState) (h : Nat) (r : Resource)
    (hw : stateWF s) : stateWF (updateRes s h r) := by
  obtain ⟨h1, h2, h3⟩ := hw
  refine ⟨h1, ?_, ?_⟩
  · intro p hp
    simp only [updateRes, List.mem_map] at hp
    obtain ⟨q, hq, rfl⟩ := hp
    by_cases hqh : q.1 = h
    · simpa [hqh] using h2 q hq
    · simpa [hqh] using h2 q hq
  · rw [keys_updateRes]
    exact h3

theorem stateWF_removeRes (s : APIState) (h : Nat) (hw : stateWF s) :
    stateWF (removeRes s h) := by
  obtain ⟨h1, h2, h3⟩ := hw
  refine ⟨h1, ?_, ?_⟩
  · intro p hp
    simp only [removeRes, List.mem_filter] at hp
    exact h2 p hp.1
  · exact List.Nodup.sublist ((List.filter_sublist _).map _) h3

theorem stateWF_insertRes (s : APIState) (r : Resource) (hw : stateWF s) :
    stateWF (insertRes s r).1 := by
  obtain ⟨h1, h2, h3⟩ := hw
  refine ⟨by simp only [insertRes]; omega, ?_, ?_⟩
  · intro p hp
    simp only [insertRes, List.mem_cons] at hp
    rcases hp with rfl | hp
    · constructor
      · simp only [insertRes]
        omega
      · simp only [insertRes]
        omega
    · obtain ⟨hz, hlt⟩ := h2 p hp
      refine ⟨hz, ?_⟩
      simp only [insertRes]
      omega
  · simp only [insertRes, List.map_cons]
    refine List.nodup_cons.mpr ⟨?_, h3⟩
    intro hmem
    rw [List.mem_map] at hmem
    obtain ⟨p, hp, hfst⟩ := hmem
    have := (h2 p hp).2
    omega

theorem stateWF_applyOp (s : APIState) (op : Op) (hw : stateWF s) :
    stateWF (applyOp s op) := by
  cases op <;>
    simp only [applyOp, dqcs_arb_new, dqcs_cmd_new, dqcs_handle_delete,
      dqcs_handle_dump, dqcs_cmd_iface_get, dqcs_cmd_oper_get,
      dqcs_cmd_iface_cmp, dqcs_cmd_oper_cmp, dqcs_arb_json_set,
      dqcs_arb_push, dqcs_arb_pop, dqcs_arb_len, dqcs_arb_assign] <;>
    (repeat' split) <;>
    first
      | exact hw
      | exact (stateWF_fail _ _).mpr hw
      | exact stateWF_updateRes _ _ _ hw
      | exact stateWF_removeRes _ _ hw
      | exact stateWF_insertRes _ _ hw

theorem opFailed_setErr (s : APIState) (e : Option String) (op : Op) :
    opFailed (setErr s e) op = opFailed s op := by
  cases op <;>
    simp only [opFailed, dqcs_arb_new, dqcs_cmd_new, dqcs_handle_delete,
      dqcs_handle_dump, dqcs_cmd_iface_get, dqcs_cmd_oper_get,
      dqcs_cmd_iface_cmp, dqcs_cmd_oper_cmp, dqcs_arb_json_set,
      dqcs_arb_push, dqcs_arb_pop, dqcs_arb_len, dqcs_arb_assign,
      find_setErr] <;>
    (repeat' split) <;> rfl

theorem applyOp_setErr (s : APIState) (e : Option String) (op : Op)
    (hw : stateWF s) :
    applyOp (setErr s e) op =
      (if opFailed s op then applyOp s op else setErr (applyOp s op) e) := by
  obtain ⟨h1, _, _⟩ := hw
  cases op <;>
    simp only [applyOp, opFailed, dqcs_arb_new, dqcs_cmd_new, dqcs_handle_delete,
      dqcs_handle_dump, dqcs_cmd_iface_get, dqcs_cmd_oper_get,
      dqcs_cmd_iface_cmp, dqcs_cmd_oper_cmp, dqcs_arb_json_set,
      dqcs_arb_push, dqcs_arb_pop, dqcs_arb_len, dqcs_arb_assign,
      find_setErr] <;>
    (repeat' split) <;>
    simp_all [setErr, APIState.fail, updateRes, removeRes, insertRes]

theorem opFailed_lastError (s : APIState) (op : Op) (hw : stateWF s)
    (hf : opFailed s op = true) :
    ∃ m, (applyOp s op).lastError = some m := by
  obtain ⟨h1, _, _⟩ := hw
  revert hf
  cases op <;>
    simp only [applyOp, opFailed, dqcs_arb_new, dqcs_cmd_new, dqcs_handle_delete,
      dqcs_handle_dump, dqcs_cmd_iface_get, dqcs_cmd_oper_get,
      dqcs_cmd_iface_cmp, dqcs_cmd_oper_cmp, dqcs_arb_json_set,
      dqcs_arb_push, dqcs_arb_pop, dqcs_arb_len, dqcs_arb_assign] <;>
    (repeat' split) <;>
    simp_all [setErr, APIState.fail, updateRes, removeRes, insertRes] <;>
    omega

theorem opSuccess_lastError (s : APIState) (op : Op) (hw : stateWF s)
    (hf : opFailed s op = false) :
    (applyOp s op).lastError = s.lastError := by
  have he : setErr s s.lastError = s := rfl
  have h := applyOp_setErr s s.lastError op hw
  rw [he, if_neg (by simp [hf])] at h
  conv_lhs => rw [h]
  rfl

theorem isLive_iff (s : APIState) (k : Nat) :
    s.isLive k = true ↔ k ∈ s.handles.map Prod.fst := by
  simp only [APIState.isLive, APIState.find, Option.isSome_map', List.find?_isSome,
    List.mem_map, beq_iff_eq]

theorem applyOp_shape (s : APIState) (op : Op) :
    (∃ m, applyOp s op = s.fail m) ∨
    applyOp s op = s ∨
    (∃ h r, applyOp s op = updateRes s h r) ∨
    (∃ h, applyOp s op = removeRes s h) ∨
    (∃ r, applyOp s op = (insertRes s r).1) := by
  cases op <;>
    simp only [applyOp, dqcs_arb_new, dqcs_cmd_new, dqcs_handle_delete,
      dqcs_handle_dump, dqcs_cmd_iface_get, dqcs_cmd_oper_get,
      dqcs_cmd_iface_cmp, dqcs_cmd_oper_cmp, dqcs_arb_json_set,
      dqcs_arb_push, dqcs_arb_pop, dqcs_arb_len, dqcs_arb_assign] <;>
    (repeat' split) <;>
    first
      | exact Or.inl ⟨_, rfl⟩
      | exact Or.inr (Or.inl rfl)
      | exact Or.inr (Or.inr (Or.inl ⟨_, _, rfl⟩))
      | exact Or.inr (Or.inr (Or.inr (Or.inl ⟨_, rfl⟩)))
      | exact Or.inr (Or.inr (Or.inr (Or.inr ⟨_, rfl⟩)))

theorem isLive_fail (s : APIState) (m : String) (k : Nat) :
    (s.fail m).isLive k = s.isLive k := rfl

theorem keys_fail (s : APIState) (m : String) :
    (s.fail m).handles = s.handles := rfl

theorem isLive_updateRes (s : APIState) (h : Nat) (r : Resource) (k : Nat) :
    (updateRes s h r).isLive k = s.isLive k := by
  rw [Bool.eq_iff_iff, isLive_iff, isLive_iff, keys_updateRes]

theorem isLive_removeRes (s : APIState) (h k : Nat)
    (hl : (removeRes s h).isLive k = true) : s.isLive k = true := by
  rw [isLive_iff] at hl ⊢
  rw [List.mem_map] at hl ⊢
  obtain ⟨p, hp, rfl⟩ := hl
  exact ⟨p, List.mem_of_mem_filter hp, rfl⟩

theorem isLive_insertRes (s : APIState) (r : Resource) (k : Nat)
    (hl : ((insertRes s r).1).isLive k = true) :
    k = s.nextHandle ∨ s.isLive k = true := by
  rw [isLive_iff] at hl
  have : (insertRes s r).1.handles.map Prod.fst = s.nextHandle :: s.handles.map Prod.fst := rfl
  rw [this, List.mem_cons] at hl
  rcases hl with rfl | hl
  · exact Or.inl rfl
  · exact Or.inr ((isLive_iff s k).mpr hl)

theorem nextHandle_applyOp (s : APIState) (op : Op) :
    s.nextHandle ≤ (applyOp s op).nextHandle := by
  rcases applyOp_shape s op with ⟨m, hm⟩ | hs | ⟨h, r, hu⟩ | ⟨h, hr⟩ | ⟨r, hi⟩
  · rw [hm]
    exact Nat.le_refl _
  · rw [hs]
  · rw [hu]
    exact Nat.le_refl _
  · rw [hr]
    exact Nat.le_refl _
  · rw [hi]
    simp only [insertRes]
    omega

theorem dead_stays_dead_applyOp (s : APIState) (op : Op) (k : Nat)
    (hlt : k < s.nextHandle) (hdead : s.isLive k = false) :
    (applyOp s op).isLive k = false ∧ k < (applyOp s op).nextHandle := by
  rcases applyOp_shape s op with ⟨m, hm⟩ | hs | ⟨h, r, hu⟩ | ⟨h, hr⟩ | ⟨r, hi⟩
  · rw [hm]
    exact ⟨by rw [isLive_fail]; exact hdead, hlt⟩
  · rw [hs]
    exact ⟨hdead, hlt⟩
  · rw [hu]
    refine ⟨by rw [isLive_updateRes]; exact hdead, hlt⟩
  · rw [hr]
    refine ⟨?_, hlt⟩
    cases hc : (removeRes s h).isLive k
    · rfl
    · rw [isLive_removeRes s h k hc] at hdead
      cases hdead
  · rw [hi]
    constructor
    · cases hc : ((insertRes s r).1).isLive k
      · rfl
      · rcases isLive_insertRes s r k hc with rfl | hl
        · omega
        · rw [hl] at hdead
          cases hdead
    · have : (insertRes s r).1.nextHandle = s.nextHandle + 1 := rfl
      omega

theorem dead_stays_dead_run (s : APIState) (ops : List Op) (k : Nat)
    (hlt : k < s.nextHandle) (hdead : s.isLive k = false) :
    (run s ops).isLive k = false := by
  induction ops generalizing s with
  | nil => exact hdead
  | cons op ops ih =>
    obtain ⟨h1, h2⟩ := dead_stays_dead_applyOp s op k hlt hdead
    exact ih (applyOp s op) h2 h1

theorem setData_getData_self (r : Resource) : r.setData r.getData = r := by
  cases r <;> rfl

theorem updateRes_self (s : APIState) (h : Nat) (r : Resource)
    (hw : stateWF s) (hf : s.find h = some r) : updateRes s h r = s := by
  obtain ⟨-, -, h3⟩ := hw
  unfold APIState.find at hf
  obtain ⟨p0, hp0, hp0r⟩ : ∃ p0, s.handles.find? (fun p => p.1 == h) = some p0 ∧ p0.2 = r := by
    cases hc : s.handles.find? (fun p => p.1 == h) with
    | none => rw [hc] at hf; cases hf
    | some p0 => rw [hc] at hf; exact ⟨p0, rfl, by simpa using hf⟩
  have hp0k : p0.1 = h := by simpa using List.find?_some hp0
  have hp0m : p0 ∈ s.handles := List.mem_of_find?_eq_some hp0
  unfold updateRes
  have : s.handles.map (fun p => if p.1 == h then (p.1, r) else p) = s.handles := by
    conv_rhs => rw [← List.map_id s.handles]
    apply List.map_congr_left
    intro q hq
    by_cases hqk : q.1 = h
    · have hqe : q = p0 :=
        List.inj_on_of_nodup_map h3 hq hp0m (by rw [hqk, hp0k])
      rw [if_pos (by simpa using hqk), hqe, ← hp0r]
      rfl
    · rw [if_neg (by simpa using hqk)]
      rfl
  rw [this]

theorem pushAll_spec (xs : List String) (s : APIState) (h : Nat) (r : Resource)
    (hw : stateWF s) (hf : s.find h = some r) :
    pushAll s h xs =
      (updateRes s h (r.setData { r.getData with args := r.getData.args ++ xs }), true) := by
  induction xs generalizing s r with
  | nil =>
    have h1 : ({ r.getData with args := r.getData.args ++ [] } : ArbData) = r.getData := by
      simp
    rw [h1, setData_getData_self, updateRes_self s h r hw hf]
    rfl
  | cons x xs ih =>
    have hpush : dqcs_arb_push s h (some x) =
        (updateRes s h (r.setData { r.getData with args := r.getData.args ++ [x] }),
         .DQCS_SUCCESS) := by
      unfold dqcs_arb_push
      rw [hf]
    have hw1 : stateWF (updateRes s h (r.setData { r.getData with args := r.getData.args ++ [x] })) :=
      stateWF_updateRes _ _ _ hw
    have hf1 : (updateRes s h (r.setData { r.getData with args := r.getData.args ++ [x] })).find h =
        some (r.setData { r.getData with args := r.getData.args ++ [x] }) := by
      rw [find_updateRes, hf]
      rfl
    have hstep := ih _ _ hw1 hf1
    show (let p := dqcs_arb_push s h (some x)
          let q := pushAll p.1 h xs
          (q.1, (p.2 == dqcs_return_t.DQCS_SUCCESS) && q.2)) = _
    rw [hpush]
    simp only []
    rw [hstep]
    rw [getData_setData, setData_setData, updateRes_updateRes]
    simp

theorem popN_spec (xs a : List String) (s : APIState) (h : Nat) (r : Resource)
    (hw : stateWF s) (hf : s.find h = some r)
    (hargs : r.getData.args = a ++ xs) :
    popN s h xs.length =
      (updateRes s h (r.setData { r.getData with args := a }),
       xs.reverse.map (fun x => some x)) := by
  induction xs using List.reverseRecOn generalizing s r with
  | nil =>
    rw [List.append_nil] at hargs
    have h1 : ({ r.getData with args := a } : ArbData) = r.getData := by
      rw [← hargs]
    rw [h1, setData_getData_self, updateRes_self s h r hw hf]
    rfl
  | append_singleton ys y ih =>
    have hlast : r.getData.args.getLast? = some y := by
      rw [hargs, ← List.append_assoc]
      exact List.getLast?_concat _
    have hdrop : r.getData.args.dropLast = a ++ ys := by
      rw [hargs, ← List.append_assoc]
      exact List.dropLast_concat
    have hpop : dqcs_arb_pop s h =
        (updateRes s h (r.setData { r.getData with args := a ++ ys }), some y) := by
      unfold dqcs_arb_pop
      rw [hf]
      simp only [hlast, hdrop]
    have hw1 : stateWF (updateRes s h (r.setData { r.getData with args := a ++ ys })) :=
      stateWF_updateRes _ _ _ hw
    have hf1 : (updateRes s h (r.setData { r.getData with args := a ++ ys })).find h =
        some (r.setData { r.getData with args := a ++ ys }) := by
      rw [find_updateRes, hf]
      rfl
    have hargs1 : (r.setData { r.getData with args := a ++ ys }).getData.args = a ++ ys := by
      rw [getData_setData]
    have hstep := ih _ _ hw1 hf1 hargs1
    have hlen : (ys ++ [y]).length = ys.length + 1 := by simp
    rw [hlen]
    show (let p := dqcs_arb_pop s h
          let q := popN p.1 h ys.length
          (q.1, p.2 :: q.2)) = _
    rw [hpop]
    simp only []
    rw [hstep]
    rw [getData_setData, setData_setData, updateRes_updateRes]
    simp [List.reverse_append]

theorem jsonWF_find (s : APIState) (h : Nat) (r : Resource)
    (hj : jsonWF s) (hf : s.find h = some r) :
    r.getData.json.isObj = true := by
  unfold APIState.find at hf
  cases hc : s.handles.find? (fun p => p.1 == h) with
  | none => rw [hc] at hf; cases hf
  | some p0 =>
    rw [hc] at hf
    have hp0m : p0 ∈ s.handles := List.mem_of_find?_eq_some hc
    have : p0.2 = r := by simpa using hf
    rw [← this]
    exact hj p0 hp0m

theorem jsonWF_updateRes (s : APIState) (h : Nat) (r : Resource)
    (hj : jsonWF s) (hobj : r.getData.json.isObj = true) :
    jsonWF (updateRes s h r) := by
  intro p hp
  simp only [updateRes, List.mem_map] at hp
  obtain ⟨q, hq, rfl⟩ := hp
  by_cases hqk : q.1 = h
  · simpa [hqk] using hobj
  · simpa [hqk] using hj q hq

theorem jsonWF_removeRes (s : APIState) (h : Nat) (hj : jsonWF s) :
    jsonWF (removeRes s h) := by
  intro p hp
  simp only [removeRes, List.mem_filter] at hp
  exact hj p hp.1

theorem jsonWF_insertRes (s : APIState) (r : Resource)
    (hj : jsonWF s) (hobj : r.getData.json.isObj = true) :
    jsonWF (insertRes s r).1 := by
  intro p hp
  simp only [insertRes, List.mem_cons] at hp
  rcases hp with rfl | hp
  · exact hobj
  · exact hj p hp

theorem jsonWF_applyOp (s : APIState) (op : Op) (hj : jsonWF s) :
    jsonWF (applyOp s op) := by
  cases op with
  | arbNew => exact jsonWF_insertRes _ _ hj rfl
  | cmdNew i o =>
    simp only [applyOp, dqcs_cmd_new]
    repeat' split
    any_goals exact hj
    exact jsonWF_insertRes _ _ hj rfl
  | hdelete h =>
    simp only [applyOp, dqcs_handle_delete]
    split
    · exact hj
    · exact jsonWF_removeRes _ _ hj
  | hdump h =>
    simp only [applyOp, dqcs_handle_dump]
    split <;> exact hj
  | ifaceGet h =>
    simp only [applyOp, dqcs_cmd_iface_get]
    split <;> exact hj
  | operGet h =>
    simp only [applyOp, dqcs_cmd_oper_get]
    split <;> exact hj
  | ifaceCmp h t =>
    simp only [applyOp, dqcs_cmd_iface_cmp]
    repeat' split
    all_goals exact hj
  | operCmp h t =>
    simp only [applyOp, dqcs_cmd_oper_cmp]
    repeat' split
    all_goals exact hj
  | jsonSet h p =>
    simp only [applyOp, dqcs_arb_json_set]
    split
    · exact hj
    next r hfind =>
      split
      · exact hj
      next v =>
        split
        next fs =>
          apply jsonWF_updateRes _ _ _ hj
          rw [getData_setData]
          rfl
        next => exact hj
  | pushArg h x =>
    simp only [applyOp, dqcs_arb_push]
    split
    · exact hj
    next r hfind =>
      split
      · exact hj
      next x' =>
        apply jsonWF_updateRes _ _ _ hj
        rw [getData_setData]
        exact jsonWF_find s h r hj hfind
  | popArg h =>
    simp only [applyOp, dqcs_arb_pop]
    split
    · exact hj
    next r hfind =>
      split
      · exact hj
      next xx hlast =>
        apply jsonWF_updateRes _ _ _ hj
        rw [getData_setData]
        exact jsonWF_find s h r hj hfind
  | lenOf h =>
    simp only [applyOp, dqcs_arb_len]
    split <;> exact hj
  | assign d sr =>
    simp only [applyOp, dqcs_arb_assign]
    split
    · exact hj
    next rd hfd =>
      split
      · exact hj
      next rs hfs =>
        apply jsonWF_updateRes _ _ _ hj
        rw [getData_setData]
        exact jsonWF_find s sr rs hj hfs

theorem find_insertRes (s : APIState) (r : Resource) :
    ((insertRes s r).1).find s.nextHandle = some r := by
  unfold insertRes APIState.find
  simp

theorem isLive_nextHandle (s : APIState) (hw : stateWF s) :
    s.isLive s.nextHandle = false := by
  obtain ⟨h1, h2, h3⟩ := hw
  cases hc : s.isLive s.nextHandle
  · rfl
  · rw [isLive_iff, List.mem_map] at hc
    obtain ⟨p, hp, hfst⟩ := hc
    have := (h2 p hp).2
    omega

theorem isLive_zero (s : APIState) (hw : stateWF s) : s.isLive 0 = false := by
  obtain ⟨h1, h2, h3⟩ := hw
  cases hc : s.isLive 0
  · rfl
  · rw [isLive_iff, List.mem_map] at hc
    obtain ⟨p, hp, hfst⟩ := hc
    exact absurd hfst (h2 p hp).1

theorem isLive_lt_nextHandle (s : APIState) (k : Nat) (hw : stateWF s)
    (hl : s.isLive k = true) : k < s.nextHandle := by
  obtain ⟨h1, h2, h3⟩ := hw
  rw [isLive_iff, List.mem_map] at hl
  obtain ⟨p, hp, hfst⟩ := hl
  have := (h2 p hp).2
  omega

/-- C1: after a successful handle_delete, the handle type query reports
the distinguished invalid tag (without a failure return), and every
other operation on the deleted handle (dump, identifier getters, json
set, push, pop, len, assign, and a second delete) fails with the
invalid-handle error recorded in the error channel. -/
theorem handle_delete_invalidates (s s' : APIState) (h : Nat)
    (hdel : (dqcs_handle_delete s h).2 = dqcs_return_t.DQCS_SUCCESS)
    (hs' : s' = (dqcs_handle_delete s h).1) :
    dqcs_handle_type s' h = dqcs_handle_type_t.DQCS_HTYPE_INVALID ∧
    dqcs_handle_dump s' h = (s'.fail (invalidHandleMsg h), none) ∧
    dqcs_cmd_iface_get s' h = (s'.fail (invalidHandleMsg h), none) ∧
    dqcs_cmd_oper_get s' h = (s'.fail (invalidHandleMsg h), none) ∧
    (∀ p, dqcs_arb_json_set s' h p = (s'.fail (invalidHandleMsg h), dqcs_return_t.DQCS_FAILURE)) ∧
    (∀ x, dqcs_arb_push s' h x = (s'.fail (invalidHandleMsg h), dqcs_return_t.DQCS_FAILURE)) ∧
    dqcs_arb_pop s' h = (s'.fail (invalidHandleMsg h), none) ∧
    dqcs_arb_len s' h = (s'.fail (invalidHandleMsg h), -1) ∧
    (∀ src, dqcs_arb_assign s' h src = (s'.fail (invalidHandleMsg h), dqcs_return_t.DQCS_FAILURE)) ∧
    dqcs_handle_delete s' h = (s'.fail (invalidHandleMsg h), dqcs_return_t.DQCS_FAILURE) := by
  cases hfind : s.find h with
  | none =>
    rw [dqcs_handle_delete, hfind] at hdel
    cases hdel
  | some r =>
    have h1 : s' = removeRes s h := by
      rw [hs', dqcs_handle_delete, hfind]
    have hnone : s'.find h = none := by
      rw [h1]
      exact find_removeRes s h
    refine ⟨?_, ?_, ?_, ?_, ?_, ?_, ?_, ?_, ?_, ?_⟩
    · rw [dqcs_handle_type, hnone]
    · rw [dqcs_handle_dump, hnone]
    · rw [dqcs_cmd_iface_get, hnone]
    · rw [dqcs_cmd_oper_get, hnone]
    · intro p
      rw [dqcs_arb_json_set, hnone]
    · intro x
      rw [dqcs_arb_push, hnone]
    · rw [dqcs_arb_pop, hnone]
    · rw [dqcs_arb_len, hnone]
    · intro src
      rw [dqcs_arb_assign, hnone]
    · rw [dqcs_handle_delete, hnone]

/-- Witness for C1 at a concrete run: create ArbCmd("a","b"), delete it,
and observe the invalid type tag and the failing dump. -/
theorem handle_delete_invalidates_witness :
    (dqcs_handle_delete (dqcs_cmd_new initialState (some "a") (some "b")).1 1).2 =
        dqcs_return_t.DQCS_SUCCESS ∧
    dqcs_handle_type
        (dqcs_handle_delete (dqcs_cmd_new initialState (some "a") (some "b")).1 1).1 1 =
      dqcs_handle_type_t.DQCS_HTYPE_INVALID :=
  ⟨by decide,
   (handle_delete_invalidates (dqcs_cmd_new initialState (some "a") (some "b")).1 _ 1
      (by decide) rfl).1⟩

/-- C2: cmd_new identifier validation: any pair of non-empty strings
over [a-zA-Z0-9_] yields a nonzero handle; an empty identifier fails
with the pinned empty-identifier message; an identifier with a character
outside the set fails with the message citing it; a NULL string fails,
before validation, with the pinned NULL-string message; every failure
returns handle 0. -/
theorem cmd_new_validation (s : APIState) (hw : stateWF s) :
    (∀ i o : String, i ≠ "" → i.data.all isIdentChar = true →
        o ≠ "" → o.data.all isIdentChar = true →
        (dqcs_cmd_new s (some i) (some o)).2 = s.nextHandle ∧
        (dqcs_cmd_new s (some i) (some o)).2 ≠ 0) ∧
    (∀ o : String, dqcs_cmd_new s (some "") (some o) = (s.fail emptyIdentMsg, 0)) ∧
    (∀ i : String, i ≠ "" → i.data.all isIdentChar = true →
        dqcs_cmd_new s (some i) (some "") = (s.fail emptyIdentMsg, 0)) ∧
    (∀ i o : String, i ≠ "" → i.data.all isIdentChar = false →
        dqcs_cmd_new s (some i) (some o) = (s.fail (invalidIdentMsg i), 0)) ∧
    (∀ i o : String, i ≠ "" → i.data.all isIdentChar = true →
        o ≠ "" → o.data.all isIdentChar = false →
        dqcs_cmd_new s (some i) (some o) = (s.fail (invalidIdentMsg o), 0)) ∧
    (∀ o : Option String, dqcs_cmd_new s none o = (s.fail nullStringMsg, 0)) ∧
    (∀ i : String, dqcs_cmd_new s (some i) none = (s.fail nullStringMsg, 0)) := by
  obtain ⟨h1, -, -⟩ := hw
  refine ⟨?_, ?_, ?_, ?_, ?_, ?_, ?_⟩
  · intro i o hi1 hi2 ho1 ho2
    have hvi : validateIdent i = none := by
      simp [validateIdent, String.isEmpty_iff, hi1, hi2]
    have hvo : validateIdent o = none := by
      simp [validateIdent, String.isEmpty_iff, ho1, ho2]
    rw [dqcs_cmd_new, hvi, hvo]
    exact ⟨rfl, by simp [insertRes]; omega⟩
  · intro o
    have hvi : validateIdent "" = some emptyIdentMsg := rfl
    rw [dqcs_cmd_new, hvi]
  · intro i hi1 hi2
    have hvi : validateIdent i = none := by
      simp [validateIdent, String.isEmpty_iff, hi1, hi2]
    have hvo : validateIdent "" = some emptyIdentMsg := rfl
    rw [dqcs_cmd_new, hvi, hvo]
  · intro i o hi1 hi2
    have hvi : validateIdent i = some (invalidIdentMsg i) := by
      simp [validateIdent, String.isEmpty_iff, hi1, hi2]
    rw [dqcs_cmd_new, hvi]
  · intro i o hi1 hi2 ho1 ho2
    have hvi : validateIdent i = none := by
      simp [validateIdent, String.isEmpty_iff, hi1, hi2]
    have hvo : validateIdent o = some (invalidIdentMsg o) := by
      simp [validateIdent, String.isEmpty_iff, ho1, ho2]
    rw [dqcs_cmd_new, hvi, hvo]
  · intro o
    cases o <;> rfl
  · intro i
    rfl

/-- Witness for C2 at the concrete inputs of the test: an empty
operation identifier is rejected with the pinned message and handle 0. -/
theorem cmd_new_validation_witness :
    stateWF initialState ∧
    dqcs_cmd_new initialState (some "nope") (some "") =
      (initialState.fail emptyIdentMsg, 0) :=
  ⟨by decide,
   (cmd_new_validation initialState (by decide)).2.2.1 "nope" (by decide) (by decide)⟩

/-- C3: starting from a live handle with an empty args list, pushing n
values and then popping n times returns exactly the pushed values in
reverse (LIFO) order; one further pop fails with the out-of-range error;
len reports the count after the pushes and after the pops, whatever the
json field holds. -/
theorem push_pop_lifo (s : APIState) (h : Nat) (r : Resource) (xs : List String)
    (hw : stateWF s) (hf : s.find h = some r) (hempty : r.getData.args = []) :
    (pushAll s h xs).2 = true ∧
    (dqcs_arb_len (pushAll s h xs).1 h).2 = Int.ofNat xs.length ∧
    (popN (pushAll s h xs).1 h xs.length).2 = xs.reverse.map (fun x => some x) ∧
    (dqcs_arb_len (popN (pushAll s h xs).1 h xs.length).1 h).2 = 0 ∧
    (dqcs_arb_pop (popN (pushAll s h xs).1 h xs.length).1 h).2 = none ∧
    ((dqcs_arb_pop (popN (pushAll s h xs).1 h xs.length).1 h).1).lastError =
      some outOfRangeMsg := by
  have hpush : pushAll s h xs =
      (updateRes s h (r.setData { r.getData with args := xs }), true) := by
    rw [pushAll_spec xs s h r hw hf, hempty]
    simp
  have hw1 : stateWF (updateRes s h (r.setData { r.getData with args := xs })) :=
    stateWF_updateRes _ _ _ hw
  have hf1 : (updateRes s h (r.setData { r.getData with args := xs })).find h =
      some (r.setData { r.getData with args := xs }) := by
    rw [find_updateRes, hf]
    rfl
  have hargs1 : (r.setData { r.getData with args := xs }).getData.args = [] ++ xs := by
    rw [getData_setData]
    rfl
  have hpop := popN_spec xs [] (updateRes s h (r.setData { r.getData with args := xs })) h
    (r.setData { r.getData with args := xs }) hw1 hf1 hargs1
  have hf2 : ((popN (pushAll s h xs).1 h xs.length).1).find h =
      some ((r.setData { r.getData with args := xs }).setData
        { (r.setData { r.getData with args := xs }).getData with args := [] }) := by
    rw [hpush]
    simp only []
    rw [hpop]
    simp only []
    rw [find_updateRes, hf1]
    rfl
  have hargs2 : ((r.setData { r.getData with args := xs }).setData
      { (r.setData { r.getData with args := xs }).getData with args := [] }).getData.args = [] := by
    rw [getData_setData]
  refine ⟨by rw [hpush], ?_, ?_, ?_, ?_, ?_⟩
  · rw [hpush]
    simp only []
    rw [dqcs_arb_len, hf1]
    simp [getData_setData]
  · rw [hpush]
    simp only []
    rw [hpop]
  · rw [dqcs_arb_len, hf2]
    simp [hargs2]
  · rw [dqcs_arb_pop, hf2]
    simp [hargs2]
  · rw [dqcs_arb_pop, hf2]
    simp [hargs2, APIState.fail]

/-- Witness for C3 at the test's concrete run: push "a","b","c" onto a
fresh ArbCmd and pop them back as "c","b","a", the extra pop failing. -/
theorem push_pop_lifo_witness :
    stateWF (dqcs_cmd_new initialState (some "foo") (some "bar")).1 ∧
    (dqcs_cmd_new initialState (some "foo") (some "bar")).1.find 1 =
      some (Resource.arbCmd "foo" "bar" { json := .jobj [], args := [] }) ∧
    (popN (pushAll (dqcs_cmd_new initialState (some "foo") (some "bar")).1 1
        ["a", "b", "c"]).1 1 3).2 = [some "c", some "b", some "a"] :=
  ⟨by decide, rfl,
   (push_pop_lifo (dqcs_cmd_new initialState (some "foo") (some "bar")).1 1
      (Resource.arbCmd "foo" "bar" { json := .jobj [], args := [] })
      ["a", "b", "c"] (by decide) rfl rfl).2.2.1⟩

/-- C4: assign copies json and args from the source into an ArbCmd
destination's embedded ArbData while the interface and operation
identifiers read back unchanged; every ArbData operation (set_json,
get_json, push_arg, pop_arg, len, assign) likewise acts transparently
on the embedded ArbData of an ArbCmd handle, leaving its identifiers
intact. -/
theorem assign_preserves_identifiers (s : APIState) (dst src : Nat)
    (i o : String) (d : ArbData) (rs : Resource)
    (hdst : s.find dst = some (Resource.arbCmd i o d))
    (hsrc : s.find src = some rs) :
    (dqcs_arb_assign s dst src).2 = dqcs_return_t.DQCS_SUCCESS ∧
    ((dqcs_arb_assign s dst src).1).find dst = some (Resource.arbCmd i o rs.getData) ∧
    (dqcs_cmd_iface_get (dqcs_arb_assign s dst src).1 dst).2 = some i ∧
    (dqcs_cmd_oper_get (dqcs_arb_assign s dst src).1 dst).2 = some o ∧
    (∀ x, ((dqcs_arb_push s dst (some x)).1).find dst =
        some (Resource.arbCmd i o { d with args := d.args ++ [x] })) ∧
    (dqcs_arb_len s dst).2 = Int.ofNat d.args.length ∧
    (∀ fs, ((dqcs_arb_json_set s dst (some (.jobj fs))).1).find dst =
        some (Resource.arbCmd i o { d with json := .jobj fs })) ∧
    dqcs_arb_json_get s dst = (s, some (jsonToText d.json)) ∧
    (∀ x, d.args.getLast? = some x →
        (dqcs_arb_pop s dst).2 = some x ∧
        ((dqcs_arb_pop s dst).1).find dst =
          some (Resource.arbCmd i o { d with args := d.args.dropLast })) := by
  have hres : dqcs_arb_assign s dst src =
      (updateRes s dst (Resource.arbCmd i o rs.getData), dqcs_return_t.DQCS_SUCCESS) := by
    rw [dqcs_arb_assign, hdst, hsrc]
    rfl
  have hfind2 : (updateRes s dst (Resource.arbCmd i o rs.getData)).find dst =
      some (Resource.arbCmd i o rs.getData) := by
    rw [find_updateRes, hdst]
    rfl
  refine ⟨by rw [hres], ?_, ?_, ?_, ?_, ?_, ?_, ?_, ?_⟩
  · rw [hres]
    exact hfind2
  · rw [hres]
    simp [dqcs_cmd_iface_get, hfind2]
  · rw [hres]
    simp [dqcs_cmd_oper_get, hfind2]
  · intro x
    have hstep : dqcs_arb_push s dst (some x) =
        (updateRes s dst (Resource.arbCmd i o { d with args := d.args ++ [x] }),
         dqcs_return_t.DQCS_SUCCESS) := by
      rw [dqcs_arb_push, hdst]
      rfl
    rw [hstep]
    simp only []
    rw [find_updateRes, hdst]
    rfl
  · rw [dqcs_arb_len, hdst]
    rfl
  · intro fs
    have hstep : dqcs_arb_json_set s dst (some (.jobj fs)) =
        (updateRes s dst (Resource.arbCmd i o { d with json := .jobj fs }),
         dqcs_return_t.DQCS_SUCCESS) := by
      rw [dqcs_arb_json_set, hdst]
      rfl
    rw [hstep]
    simp only []
    rw [find_updateRes, hdst]
    rfl
  · rw [dqcs_arb_json_get, hdst]
    rfl
  · intro x hx
    have hstep : dqcs_arb_pop s dst =
        (updateRes s dst (Resource.arbCmd i o { d with args := d.args.dropLast }),
         some x) := by
      rw [dqcs_arb_pop, hdst]
      simp only [Resource.getData]
      rw [hx]
      rfl
    constructor
    · rw [hstep]
    · rw [hstep]
      simp only []
      rw [find_updateRes, hdst]
      rfl

/-- Witness for C4 at the test's concrete run: assigning a fresh ArbData
into ArbCmd("baz","quux") leaves the interface identifier readable as
"baz", and get_json on the cmd handle serializes the embedded empty
object. -/
theorem assign_preserves_identifiers_witness :
    ((dqcs_arb_new (dqcs_cmd_new initialState (some "baz") (some "quux")).1).1.find 1 =
        some (Resource.arbCmd "baz" "quux" { json := .jobj [], args := [] })) ∧
    ((dqcs_arb_new (dqcs_cmd_new initialState (some "baz") (some "quux")).1).1.find 2 =
        some (Resource.arbData { json := .jobj [], args := [] })) ∧
    (dqcs_cmd_iface_get
        (dqcs_arb_assign
          (dqcs_arb_new (dqcs_cmd_new initialState (some "baz") (some "quux")).1).1 1 2).1
        1).2 = some "baz" ∧
    (dqcs_arb_json_get
        (dqcs_arb_new (dqcs_cmd_new initialState (some "baz") (some "quux")).1).1 1).2 =
      some "\x7b\x7d" :=
  ⟨rfl, rfl,
   (assign_preserves_identifiers
      (dqcs_arb_new (dqcs_cmd_new initialState (some "baz") (some "quux")).1).1 1 2
      "baz" "quux" { json := .jobj [], args := [] }
      (Resource.arbData { json := .jobj [], args := [] }) rfl rfl).2.2.1,
   by
     rw [(assign_preserves_identifiers
        (dqcs_arb_new (dqcs_cmd_new initialState (some "baz") (some "quux")).1).1 1 2
        "baz" "quux" { json := .jobj [], args := [] }
        (Resource.arbData { json := .jobj [], args := [] }) rfl rfl).2.2.2.2.2.2.2.1]
     rfl⟩

/-- C5: round-trip: creating an ArbCmd from a valid identifier pair and
reading the identifiers back through the getters yields exactly the
original strings. -/
theorem cmd_new_roundtrip (s : APIState) (iface oper : String)
    (hi : validateIdent iface = none) (ho : validateIdent oper = none) :
    (dqcs_cmd_iface_get (dqcs_cmd_new s (some iface) (some oper)).1
        (dqcs_cmd_new s (some iface) (some oper)).2).2 = some iface ∧
    (dqcs_cmd_oper_get (dqcs_cmd_new s (some iface) (some oper)).1
        (dqcs_cmd_new s (some iface) (some oper)).2).2 = some oper := by
  have hres : dqcs_cmd_new s (some iface) (some oper) =
      insertRes s (Resource.arbCmd iface oper { json := .jobj [], args := [] }) := by
    rw [dqcs_cmd_new, hi, ho]
  have h2 : (insertRes s (Resource.arbCmd iface oper { json := .jobj [], args := [] })).2 =
      s.nextHandle := rfl
  constructor
  · rw [hres, h2, dqcs_cmd_iface_get, find_insertRes]
  · rw [hres, h2, dqcs_cmd_oper_get, find_insertRes]

/-- Witness for C5 at the test's concrete identifiers "foo"/"bar". -/
theorem cmd_new_roundtrip_witness :
    validateIdent "foo" = none ∧ validateIdent "bar" = none ∧
    (dqcs_cmd_iface_get (dqcs_cmd_new initialState (some "foo") (some "bar")).1
        (dqcs_cmd_new initialState (some "foo") (some "bar")).2).2 = some "foo" :=
  ⟨by decide, by decide,
   (cmd_new_roundtrip initialState "foo" "bar" (by decide) (by decide)).1⟩

/-- C6: the json field of every live resource is always a JSON object:
it starts as the empty object for fresh ArbData and ArbCmd resources,
the invariant is preserved by every operation, and set_json fails on a
parse error or a non-object root leaving the state's resources
untouched, while on success it replaces json wholesale with args
untouched. -/
theorem json_object_invariant :
    jsonWF initialState ∧
    (∀ s op, jsonWF s → jsonWF (applyOp s op)) ∧
    (∀ s : APIState, ((dqcs_arb_new s).1).find (dqcs_arb_new s).2 =
        some (Resource.arbData { json := .jobj [], args := [] })) ∧
    (∀ (s : APIState) (i o : String), validateIdent i = none → validateIdent o = none →
        ((dqcs_cmd_new s (some i) (some o)).1).find (dqcs_cmd_new s (some i) (some o)).2 =
          some (Resource.arbCmd i o { json := .jobj [], args := [] })) ∧
    (∀ (s : APIState) (h : Nat) (r : Resource), s.find h = some r →
        dqcs_arb_json_set s h none = (s.fail parseErrorMsg, dqcs_return_t.DQCS_FAILURE)) ∧
    (∀ (s : APIState) (h : Nat) (r : Resource) (v : JsonValue),
        s.find h = some r → v.isObj = false →
        dqcs_arb_json_set s h (some v) = (s.fail rootNotObjectMsg, dqcs_return_t.DQCS_FAILURE)) ∧
    (∀ (s : APIState) (h : Nat) (r : Resource) (fs : List (String × JsonValue)),
        s.find h = some r →
        dqcs_arb_json_set s h (some (.jobj fs)) =
          (updateRes s h (r.setData { r.getData with json := .jobj fs }),
           dqcs_return_t.DQCS_SUCCESS)) := by
  refine ⟨?_, ?_, ?_, ?_, ?_, ?_, ?_⟩
  · intro p hp
    cases hp
  · intro s op hj
    exact jsonWF_applyOp s op hj
  · intro s
    have h2 : (dqcs_arb_new s).2 = s.nextHandle := rfl
    rw [h2, dqcs_arb_new, find_insertRes]
  · intro s i o hi ho
    have hres : dqcs_cmd_new s (some i) (some o) =
        insertRes s (Resource.arbCmd i o { json := .jobj [], args := [] }) := by
      rw [dqcs_cmd_new, hi, ho]
    rw [hres]
    have h2 : (insertRes s (Resource.arbCmd i o { json := .jobj [], args := [] })).2 =
        s.nextHandle := rfl
    rw [h2, find_insertRes]
  · intro s h r hf
    rw [dqcs_arb_json_set, hf]
  · intro s h r v hf hv
    rw [dqcs_arb_json_set, hf]
    cases v <;> first
      | rfl
      | exact absurd hv (by simp [JsonValue.isObj])
  · intro s h r fs hf
    rw [dqcs_arb_json_set, hf]

/-- Witness for C6 at a concrete run: a fresh ArbData holds the empty
object and rejects a non-object root, leaving the state unchanged apart
from the recorded message. -/
theorem json_object_invariant_witness :
    ((dqcs_arb_new initialState).1.find 1 =
        some (Resource.arbData { json := .jobj [], args := [] })) ∧
    dqcs_arb_json_set (dqcs_arb_new initialState).1 1 (some (.jnum 42)) =
      ((dqcs_arb_new initialState).1.fail rootNotObjectMsg, dqcs_return_t.DQCS_FAILURE) :=
  ⟨rfl,
   json_object_invariant.2.2.2.2.2.1 (dqcs_arb_new initialState).1 1
     (Resource.arbData { json := .jobj [], args := [] }) (.jnum 42) rfl rfl⟩

/-- C7: for a live ArbCmd handle, cmp_iface / cmp_oper return the true
tri-state value exactly on a case-sensitive exact match and false
otherwise, leaving the state untouched; a NULL text returns the third
failure value, distinct from both true and false, and records the
NULL-string message in the error channel. -/
theorem cmd_cmp_semantics (s : APIState) (h : Nat) (i o : String) (d : ArbData)
    (hf : s.find h = some (Resource.arbCmd i o d)) :
    (∀ t : String, (dqcs_cmd_iface_cmp s h (some t)).1 = s ∧
        (dqcs_cmd_iface_cmp s h (some t)).2 =
          (if i = t then dqcs_bool_return_t.DQCS_TRUE else dqcs_bool_return_t.DQCS_FALSE)) ∧
    (∀ t : String, (dqcs_cmd_oper_cmp s h (some t)).1 = s ∧
        (dqcs_cmd_oper_cmp s h (some t)).2 =
          (if o = t then dqcs_bool_return_t.DQCS_TRUE else dqcs_bool_return_t.DQCS_FALSE)) ∧
    dqcs_cmd_iface_cmp s h none =
      (s.fail nullStringMsg, dqcs_bool_return_t.DQCS_BOOL_FAILURE) ∧
    dqcs_cmd_oper_cmp s h none =
      (s.fail nullStringMsg, dqcs_bool_return_t.DQCS_BOOL_FAILURE) ∧
    dqcs_bool_return_t.DQCS_BOOL_FAILURE ≠ dqcs_bool_return_t.DQCS_TRUE ∧
    dqcs_bool_return_t.DQCS_BOOL_FAILURE ≠ dqcs_bool_return_t.DQCS_FALSE := by
  refine ⟨?_, ?_, ?_, ?_, by decide, by decide⟩
  · intro t
    rw [dqcs_cmd_iface_cmp, hf]
    exact ⟨rfl, rfl⟩
  · intro t
    rw [dqcs_cmd_oper_cmp, hf]
    exact ⟨rfl, rfl⟩
  · rw [dqcs_cmd_iface_cmp, hf]
  · rw [dqcs_cmd_oper_cmp, hf]

/-- Witness for C7 at the test's concrete run: comparing against NULL on
ArbCmd("foo","bar") yields the distinct failure value and the pinned
message. -/
theorem cmd_cmp_semantics_witness :
    ((dqcs_cmd_new initialState (some "foo") (some "bar")).1.find 1 =
        some (Resource.arbCmd "foo" "bar" { json := .jobj [], args := [] })) ∧
    dqcs_cmd_iface_cmp (dqcs_cmd_new initialState (some "foo") (some "bar")).1 1 none =
      ((dqcs_cmd_new initialState (some "foo") (some "bar")).1.fail nullStringMsg,
       dqcs_bool_return_t.DQCS_BOOL_FAILURE) :=
  ⟨rfl,
   (cmd_cmp_semantics (dqcs_cmd_new initialState (some "foo") (some "bar")).1 1
      "foo" "bar" { json := .jobj [], args := [] } rfl).2.2.1⟩

/-- C8: handles are issued monotonically from a counter that starts past
the reserved 0: the registry invariant holds initially and is preserved
by every operation, a successful arb_new or cmd_new returns the current
counter value, which is nonzero and not live beforehand, 0 is never
live, and once a handle is deleted no sequence of further operations
ever makes it live again. -/
theorem handle_uniqueness_monotonic :
    stateWF initialState ∧
    (∀ s op, stateWF s → stateWF (applyOp s op)) ∧
    (∀ s op, s.nextHandle ≤ (applyOp s op).nextHandle) ∧
    (∀ s : APIState, stateWF s →
        (dqcs_arb_new s).2 ≠ 0 ∧ s.isLive (dqcs_arb_new s).2 = false ∧
        ((dqcs_arb_new s).1).isLive (dqcs_arb_new s).2 = true) ∧
    (∀ (s : APIState) (i o : Option String), stateWF s → (dqcs_cmd_new s i o).2 ≠ 0 →
        (dqcs_cmd_new s i o).2 = s.nextHandle ∧ s.isLive (dqcs_cmd_new s i o).2 = false) ∧
    (∀ s : APIState, stateWF s → s.isLive 0 = false) ∧
    (∀ (s : APIState) (h : Nat) (ops : List Op), stateWF s →
        (dqcs_handle_delete s h).2 = dqcs_return_t.DQCS_SUCCESS →
        (run (dqcs_handle_delete s h).1 ops).isLive h = false) := by
  refine ⟨by decide, ?_, ?_, ?_, ?_, ?_, ?_⟩
  · intro s op hw
    exact stateWF_applyOp s op hw
  · intro s op
    exact nextHandle_applyOp s op
  · intro s hw
    refine ⟨?_, ?_, ?_⟩
    · have h1 := hw.1
      simp only [dqcs_arb_new, insertRes]
      omega
    · exact isLive_nextHandle s hw
    · rw [APIState.isLive]
      have : ((dqcs_arb_new s).1).find (dqcs_arb_new s).2 =
          some (Resource.arbData { json := .jobj [], args := [] }) := by
        have h2 : (dqcs_arb_new s).2 = s.nextHandle := rfl
        rw [h2, dqcs_arb_new, find_insertRes]
      rw [this]
      rfl
  · intro s i o hw hne
    rcases i with _ | i
    · exact absurd rfl hne
    · rcases o with _ | o
      · exact absurd rfl hne
      · cases hvi : validateIdent i with
        | some m =>
          rw [dqcs_cmd_new, hvi] at hne
          exact absurd rfl hne
        | none =>
          cases hvo : validateIdent o with
          | some m =>
            rw [dqcs_cmd_new, hvi, hvo] at hne
            exact absurd rfl hne
          | none =>
            rw [dqcs_cmd_new, hvi, hvo]
            exact ⟨rfl, isLive_nextHandle s hw⟩
  · intro s hw
    exact isLive_zero s hw
  · intro s h ops hw hdel
    cases hfind : s.find h with
    | none =>
      rw [dqcs_handle_delete, hfind] at hdel
      cases hdel
    | some r =>
      have h1 : (dqcs_handle_delete s h).1 = removeRes s h := by
        rw [dqcs_handle_delete, hfind]
      have hlive : s.isLive h = true := by
        rw [APIState.isLive, hfind]
        rfl
      have hlt : h < s.nextHandle := isLive_lt_nextHandle s h hw hlive
      have hdead : (removeRes s h).isLive h = false := by
        rw [APIState.isLive, find_removeRes]
        rfl
      rw [h1]
      exact dead_stays_dead_run (removeRes s h) ops h hlt hdead

/-- Witness for C8 at a concrete run: handle 1, once deleted, stays dead
across a further arb_new and cmd_new (which reuse neither 0 nor 1). -/
theorem handle_uniqueness_monotonic_witness :
    stateWF (dqcs_cmd_new initialState (some "a") (some "b")).1 ∧
    (dqcs_handle_delete (dqcs_cmd_new initialState (some "a") (some "b")).1 1).2 =
      dqcs_return_t.DQCS_SUCCESS ∧
    (run (dqcs_handle_delete (dqcs_cmd_new initialState (some "a") (some "b")).1 1).1
        [Op.arbNew, Op.cmdNew (some "x") (some "y")]).isLive 1 = false :=
  ⟨by decide, by decide,
   handle_uniqueness_monotonic.2.2.2.2.2.2
     (dqcs_cmd_new initialState (some "a") (some "b")).1 1
     [Op.arbNew, Op.cmdNew (some "x") (some "y")] (by decide) (by decide)⟩

/-- C9: the last-error slot starts as none; explain returns it without
modifying the state; succeeding operations leave it untouched; failing
operations set it to some message, and that message overwrites rather
than extends the previous content: it does not depend on the previous
value of the slot. -/
theorem error_channel_semantics :
    initialState.lastError = none ∧
    (∀ s : APIState, dqcs_explain s = (s, s.lastError)) ∧
    (∀ (s : APIState) (op : Op), stateWF s → opFailed s op = false →
        (applyOp s op).lastError = s.lastError) ∧
    (∀ (s : APIState) (op : Op), stateWF s → opFailed s op = true →
        ∃ m, (applyOp s op).lastError = some m) ∧
    (∀ (s : APIState) (e : Option String) (op : Op),
        opFailed (setErr s e) op = opFailed s op) ∧
    (∀ (s : APIState) (e : Option String) (op : Op), stateWF s → opFailed s op = true →
        (applyOp (setErr s e) op).lastError = (applyOp s op).lastError) := by
  refine ⟨rfl, fun s => rfl, ?_, ?_, ?_, ?_⟩
  · intro s op hw hf
    exact opSuccess_lastError s op hw hf
  · intro s op hw hf
    exact opFailed_lastError s op hw hf
  · intro s e op
    exact opFailed_setErr s e op
  · intro s e op hw hf
    rw [applyOp_setErr s e op hw, if_pos (by simp [hf])]

/-- Witness for C9 at a concrete run: deleting a dead handle fails and
records a message in the previously empty slot. -/
theorem error_channel_semantics_witness :
    stateWF initialState ∧
    opFailed initialState (Op.hdelete 1) = true ∧
    (∃ m, (applyOp initialState (Op.hdelete 1)).lastError = some m) :=
  ⟨by decide, by decide,
   error_channel_semantics.2.2.2.1 initialState (Op.hdelete 1) (by decide) (by decide)⟩

/-- C10: handle_dump of a freshly created ArbCmd with interface "a" and
operation "b" returns exactly the pinned literal text of the test, with
the embedded ArbData dumped as the empty JSON object and the empty args
list; the format is byte-exact. -/
theorem fresh_cmd_dump_literal :
    (dqcs_handle_dump (dqcs_cmd_new initialState (some "a") (some "b")).1
        (dqcs_cmd_new initialState (some "a") (some "b")).2).2 =
      some "ArbCmd(\n    ArbCmd \x7b\n        interface_identifier: \"a\",\n        operation_identifier: \"b\",\n        data: ArbData \x7b\n            json: Object(\n                \x7b\x7d\n            ),\n            args: []\n        \x7d\n    \x7d\n)" := by
  rfl
